import Mathlib

/-!
Verification of the Pomodoro timer core: the countdown engine (useTimer)
and the settings persistence layer (useSettingsPersistence), embedded
shallowly from the TypeScript source.

JavaScript numbers are modelled as rationals; the special value NaN is
modelled by a dedicated constructor where the code can observe it
(unknown JSON payloads).  React state updates are modelled as explicit
state-passing; the completion effect (the useEffect that calls
transitionToNextMode when timeRemaining hits zero while running) is
composed into every operation that can produce that condition.
-/

namespace Pomodoro

/-- TimerMode from useTimer: type TimerMode = work | shortBreak | longBreak. -/
inductive TimerMode where
  | work
  | shortBreak
  | longBreak
deriving DecidableEq, Repr

/-- TimerState from useTimer: type TimerState = idle | running | paused. -/
inductive RunState where
  | idle
  | running
  | paused
deriving DecidableEq, Repr

/-- TimerSettings from useTimer: three durations in minutes (JS numbers,
modelled as rationals) and the pomodorosBeforeLongBreak count. -/
structure TimerSettings where
  workDuration : ℚ
  shortBreakDuration : ℚ
  longBreakDuration : ℚ
  pomodorosBeforeLongBreak : ℕ
deriving DecidableEq, Repr

/-- DEFAULT_SETTINGS from useTimer. -/
def DEFAULT_SETTINGS : TimerSettings :=
  { workDuration := 25
    shortBreakDuration := 5
    longBreakDuration := 15
    pomodorosBeforeLongBreak := 4 }

/-- getDurationForMode from useTimer: minutes times 60, selected by mode. -/
def getDurationForMode (mode : TimerMode) (settings : TimerSettings) : ℚ :=
  match mode with
  | .work => settings.workDuration * 60
  | .shortBreak => settings.shortBreakDuration * 60
  | .longBreak => settings.longBreakDuration * 60

/-- The engine state owned by useTimer: the four React state cells
(mode, timerState, timeRemaining, sessionCount), the interval ref
(whether a tick source is active), and two counters recording how many
times the onWorkComplete and onBreakComplete callbacks have fired. -/
structure EngineState where
  mode : TimerMode
  timerState : RunState
  timeRemaining : ℚ
  sessionCount : ℕ
  interval : Bool
  workCompleteCount : ℕ
  breakCompleteCount : ℕ
deriving DecidableEq, Repr

/-- The initial state of useTimer: mode work, idle, full work duration,
zero sessions, no interval. -/
def initEngine (settings : TimerSettings) : EngineState :=
  { mode := .work
    timerState := .idle
    timeRemaining := getDurationForMode .work settings
    sessionCount := 0
    interval := false
    workCompleteCount := 0
    breakCompleteCount := 0 }

/-- getNextMode from useTimer: after work, longBreak when the incremented
session count is divisible by pomodorosBeforeLongBreak, else shortBreak;
after any break, work.  (In JS, x % 0 is NaN which never equals 0, so a
zero threshold always yields shortBreak; Nat.mod gives (n+1) % 0 = n+1 ≠ 0,
the same branch.) -/
def getNextMode (settings : TimerSettings) (s : EngineState) : TimerMode :=
  if s.mode = .work then
    if (s.sessionCount + 1) % settings.pomodorosBeforeLongBreak = 0 then
      .longBreak
    else
      .shortBreak
  else
    .work

/-- clearTimerInterval from useTimer: drops the active interval if any. -/
def clearTimerInterval (s : EngineState) : EngineState :=
  { s with interval := false }

/-- transitionToNextMode from useTimer: on completing work, increment
sessionCount and fire onWorkComplete; otherwise fire onBreakComplete;
then set the next mode, reset timeRemaining to its duration under the
current settings, and go idle.  The interval ref is not touched. -/
def transitionToNextMode (settings : TimerSettings) (s : EngineState) :
    EngineState :=
  let nextMode := getNextMode settings s
  if s.mode = .work then
    { s with
      sessionCount := s.sessionCount + 1
      workCompleteCount := s.workCompleteCount + 1
      mode := nextMode
      timeRemaining := getDurationForMode nextMode settings
      timerState := .idle }
  else
    { s with
      breakCompleteCount := s.breakCompleteCount + 1
      mode := nextMode
      timeRemaining := getDurationForMode nextMode settings
      timerState := .idle }

/-- The completion useEffect from useTimer: when timeRemaining is 0 and
timerState is running, transitionToNextMode fires. -/
def completionEffect (settings : TimerSettings) (s : EngineState) :
    EngineState :=
  if s.timeRemaining = 0 ∧ s.timerState = .running then
    transitionToNextMode settings s
  else
    s

/-- The setInterval callback body from start: if an interval is active,
set timeRemaining to 0 and clear the interval when the previous value is
at most 1, else decrement by one. -/
def rawTick (s : EngineState) : EngineState :=
  if s.interval then
    if s.timeRemaining ≤ 1 then
      { s with timeRemaining := 0, interval := false }
    else
      { s with timeRemaining := s.timeRemaining - 1 }
  else
    s

/-- One elapsed second: the interval callback followed by the completion
effect (which React runs after the state update). -/
def tick (settings : TimerSettings) (s : EngineState) : EngineState :=
  completionEffect settings (rawTick s)

/-- start from useTimer, before the completion effect: no-op while
running, otherwise transition to running and install an interval. -/
def rawStart (s : EngineState) : EngineState :=
  if s.timerState = .running then s
  else { s with timerState := .running, interval := true }

/-- start from useTimer, with the completion effect composed. -/
def start (settings : TimerSettings) (s : EngineState) : EngineState :=
  completionEffect settings (rawStart s)

/-- pause from useTimer: no-op unless running; otherwise clear the
interval and become paused. -/
def pause (s : EngineState) : EngineState :=
  if s.timerState ≠ .running then s
  else { clearTimerInterval s with timerState := .paused }

/-- reset from useTimer: clear the interval, go idle, and set
timeRemaining to the current mode's duration under the current settings. -/
def reset (settings : TimerSettings) (s : EngineState) : EngineState :=
  { clearTimerInterval s with
    timerState := .idle
    timeRemaining := getDurationForMode s.mode settings }

/-- skip from useTimer: clear the interval and transition to next mode. -/
def skip (settings : TimerSettings) (s : EngineState) : EngineState :=
  transitionToNextMode settings (clearTimerInterval s)

/-- The public operations of the engine, plus the elapsed-second tick. -/
inductive Op where
  | start
  | pause
  | reset
  | skip
  | tick
deriving DecidableEq, Repr

/-- Apply one operation under the settings current at that moment
(useTimer reads settingsRef.current at call time). -/
def applyOp (settings : TimerSettings) (op : Op) (s : EngineState) :
    EngineState :=
  match op with
  | .start => start settings s
  | .pause => pause s
  | .reset => reset settings s
  | .skip => skip settings s
  | .tick => tick settings s

/-- Run a trace of operations; each step carries the settings record
current when it executes, so a mid-trace change of the settings record is
a change of the first component between consecutive steps. -/
def runTrace (s : EngineState) (tr : List (TimerSettings × Op)) :
    EngineState :=
  tr.foldl (fun acc p => applyOp p.1 p.2 acc) s

/-- Run a trace under one fixed settings record. -/
def runFixed (settings : TimerSettings) (s : EngineState) (ops : List Op) :
    EngineState :=
  ops.foldl (fun acc op => applyOp settings op acc) s

/-! ## Settings persistence (useSettingsPersistence.ts) -/

/-- TimerDurations from SettingsPanel: the three persisted durations in
minutes, JS numbers modelled as rationals. -/
structure TimerDurations where
  workDuration : ℚ
  shortBreakDuration : ℚ
  longBreakDuration : ℚ
deriving DecidableEq, Repr

/-- DEFAULT_DURATIONS from useSettingsPersistence. -/
def DEFAULT_DURATIONS : TimerDurations :=
  { workDuration := 25, shortBreakDuration := 5, longBreakDuration := 15 }

/-- A JSON field value as the sanitizer can observe it: a (non-NaN)
number, NaN, or any non-number value (string, boolean, object, null). -/
inductive JSField where
  | num (q : ℚ)
  | nan
  | nonNum
deriving DecidableEq, Repr

/-- A parsed JSON payload as sanitizeDurations can observe it: an object
with the three optional duration fields (none models undefined), or any
non-object value (including null, which JS typeof calls object but the
code filters out explicitly). -/
inductive JSPayload where
  | obj (workDuration shortBreakDuration longBreakDuration : Option JSField)
  | nonObject
deriving DecidableEq, Repr

/-- isValidDuration from useSettingsPersistence, applied to an optional
JSON field: true iff the value is a number, not NaN, and in [1, 60]. -/
def isValidDurationField (v : Option JSField) : Bool :=
  match v with
  | some (.num q) => decide (1 ≤ q ∧ q ≤ 60)
  | _ => false

/-- isValidDuration applied to a value already typed as a number
(a TimerDurations field): 1 ≤ value ≤ 60. -/
def isValidDuration (q : ℚ) : Bool :=
  decide (1 ≤ q ∧ q ≤ 60)

/-- mergeWithDefaults from useSettingsPersistence: each field of the
partial record is kept when valid, else replaced by its default. -/
def mergeWithDefaults (w s l : Option ℚ) : TimerDurations :=
  { workDuration :=
      match w with
      | some q => if isValidDuration q then q else DEFAULT_DURATIONS.workDuration
      | none => DEFAULT_DURATIONS.workDuration
    shortBreakDuration :=
      match s with
      | some q => if isValidDuration q then q else DEFAULT_DURATIONS.shortBreakDuration
      | none => DEFAULT_DURATIONS.shortBreakDuration
    longBreakDuration :=
      match l with
      | some q => if isValidDuration q then q else DEFAULT_DURATIONS.longBreakDuration
      | none => DEFAULT_DURATIONS.longBreakDuration }

/-- Extract a field's number when it validates, as sanitizeDurations does
with its x = isValidDuration(obj.x) ? obj.x : null locals. -/
def validatedField (v : Option JSField) : Option ℚ :=
  match v with
  | some (.num q) => if isValidDuration q then some q else none
  | _ => none

/-- sanitizeDurations from useSettingsPersistence: null for non-objects;
for objects, the record as-is when all three fields validate, otherwise
the per-field merge with defaults. -/
def sanitizeDurations (value : JSPayload) : Option TimerDurations :=
  match value with
  | .nonObject => none
  | .obj w s l =>
    match validatedField w, validatedField s, validatedField l with
    | some wq, some sq, some lq =>
      some { workDuration := wq, shortBreakDuration := sq, longBreakDuration := lq }
    | w', s', l' => some (mergeWithDefaults w' s' l')

/-- What the load effect can encounter: no stored value (or an empty
string, which the truthiness guard also skips), a storage read that
throws, a JSON.parse failure, or a parsed payload. -/
inductive LoadInput where
  | absent
  | storageThrows
  | parseError
  | payload (p : JSPayload)
deriving DecidableEq, Repr

/-- The load effect of useSettingsPersistence: settings start at
DEFAULT_DURATIONS and are replaced only when a stored payload sanitizes
to a non-null record; every failure path leaves the defaults. -/
def loadSettings (input : LoadInput) : TimerDurations :=
  match input with
  | .absent => DEFAULT_DURATIONS
  | .storageThrows => DEFAULT_DURATIONS
  | .parseError => DEFAULT_DURATIONS
  | .payload p =>
    match sanitizeDurations p with
    | some d => d
    | none => DEFAULT_DURATIONS

/-- saveSettings from useSettingsPersistence, in-memory part: the state is
always set to the new record first, with no validation; persistence is
attempted afterwards and failures are swallowed. -/
def saveSettingsMem (newSettings : TimerDurations) : TimerDurations :=
  newSettings

/-- The storage content after a successful saveSettings: the JSON
serialization of the record, with all three fields present as numbers. -/
def storageAfterSave (r : TimerDurations) : JSPayload :=
  .obj (some (.num r.workDuration)) (some (.num r.shortBreakDuration))
    (some (.num r.longBreakDuration))

/-- Specification-side description of the per-field merge: keep the
field's number when it validates, else use the given default. -/
def fieldOrDefault (v : Option JSField) (d : ℚ) : ℚ :=
  match v with
  | some (.num q) => if isValidDuration q then q else d
  | _ => d

/-! ## Lemmas about the settings store -/

lemma validatedField_eq_none (v : Option JSField) (d : ℚ)
    (h : validatedField v = none) : fieldOrDefault v d = d := by
  rcases v with _ | f
  · rfl
  · cases f with
    | num x =>
      by_cases hx : isValidDuration x
      · simp [validatedField, hx] at h
      · simp [fieldOrDefault, hx]
    | nan => rfl
    | nonNum => rfl

lemma validatedField_eq_some (v : Option JSField) (q d : ℚ)
    (h : validatedField v = some q) :
    fieldOrDefault v d = q ∧ isValidDuration q = true := by
  rcases v with _ | f
  · simp [validatedField] at h
  · cases f with
    | num x =>
      by_cases hx : isValidDuration x
      · simp [validatedField, hx] at h
        subst h
        simp [fieldOrDefault, hx]
      · simp [validatedField, hx] at h
    | nan => simp [validatedField] at h
    | nonNum => simp [validatedField] at h

lemma mergeField (v : Option JSField) (d : ℚ) :
    (match validatedField v with
      | some q => if isValidDuration q then q else d
      | none => d) = fieldOrDefault v d := by
  rcases h : validatedField v with _ | q
  · simp [h, validatedField_eq_none v d h]
  · have hsome := validatedField_eq_some v q d h
    simp [h, hsome.1, hsome.2]

lemma merge_validated (w s l : Option JSField) :
    mergeWithDefaults (validatedField w) (validatedField s)
        (validatedField l) =
      { workDuration := fieldOrDefault w DEFAULT_DURATIONS.workDuration
        shortBreakDuration :=
          fieldOrDefault s DEFAULT_DURATIONS.shortBreakDuration
        longBreakDuration :=
          fieldOrDefault l DEFAULT_DURATIONS.longBreakDuration } := by
  unfold mergeWithDefaults
  refine TimerDurations.mk.injEq .. ▸ ⟨?_, ?_, ?_⟩
  · exact mergeField w _
  · exact mergeField s _
  · exact mergeField l _

lemma sanitize_obj (w s l : Option JSField) :
    sanitizeDurations (.obj w s l) =
      some { workDuration := fieldOrDefault w DEFAULT_DURATIONS.workDuration
             shortBreakDuration :=
               fieldOrDefault s DEFAULT_DURATIONS.shortBreakDuration
             longBreakDuration :=
               fieldOrDefault l DEFAULT_DURATIONS.longBreakDuration } := by
  rcases hw : validatedField w with _ | wq <;>
    rcases hs : validatedField s with _ | sq <;>
      rcases hl : validatedField l with _ | lq <;>
        simp only [sanitizeDurations, hw, hs, hl, Option.some.injEq] <;>
        first
        | (rw [(validatedField_eq_some w _ _ hw).1,
            (validatedField_eq_some s _ _ hs).1,
            (validatedField_eq_some l _ _ hl).1])
        | (have hm := merge_validated w s l
           rw [hw, hs, hl] at hm
           exact hm)

lemma isValid_fieldOrDefault (v : Option JSField) (d : ℚ)
    (hd : isValidDuration d = true) :
    isValidDuration (fieldOrDefault v d) = true := by
  rcases v with _ | f
  · exact hd
  · cases f with
    | num x =>
      by_cases hx : isValidDuration x
      · simp [fieldOrDefault, hx]
      · simp [fieldOrDefault, hx, hd]
    | nan => exact hd
    | nonNum => exact hd

lemma loadSettings_valid (input : LoadInput) :
    isValidDuration (loadSettings input).workDuration = true ∧
    isValidDuration (loadSettings input).shortBreakDuration = true ∧
    isValidDuration (loadSettings input).longBreakDuration = true := by
  cases input with
  | absent => exact ⟨by decide, by decide, by decide⟩
  | storageThrows => exact ⟨by decide, by decide, by decide⟩
  | parseError => exact ⟨by decide, by decide, by decide⟩
  | payload p =>
    cases p with
    | nonObject => exact ⟨by decide, by decide, by decide⟩
    | obj w s l =>
      refine ⟨?_, ?_, ?_⟩ <;>
        simp only [loadSettings, sanitize_obj] <;>
        exact isValid_fieldOrDefault _ _ (by decide)

/-! ## Claims about the settings store -/

/-- C3 counterexample: saveSettings makes the record {workDuration := 0,
shortBreakDuration := 5, longBreakDuration := 15} current in memory even
though its workDuration field fails the 1 ≤ value ≤ 60 validation, and
the validation predicate itself accepts the non-integer 5/2; so the
in-memory record is not always a positive integer in [1, 60] and save
does not validate before the record becomes current. -/
theorem C3_counterexample :
    saveSettingsMem (TimerDurations.mk 0 5 15) = TimerDurations.mk 0 5 15 ∧
    isValidDuration (saveSettingsMem (TimerDurations.mk 0 5 15)).workDuration
      = false ∧
    isValidDuration (5 / 2 : ℚ) = true := by
  refine ⟨rfl, by decide, by norm_num [isValidDuration]⟩

/-- C3 amended: every record produced by the load path has each of its
three fields a number in [1, 60] (integrality is not checked, so values
such as 5/2 also validate), while save(newRecord) makes newRecord the
current in-memory record unconditionally, performing no validation of
its own — field validity at save time is the caller's responsibility. -/
theorem C3_load_valid_save_unchecked (input : LoadInput)
    (r : TimerDurations) :
    isValidDuration (loadSettings input).workDuration = true ∧
    isValidDuration (loadSettings input).shortBreakDuration = true ∧
    isValidDuration (loadSettings input).longBreakDuration = true ∧
    saveSettingsMem r = r := by
  obtain ⟨h1, h2, h3⟩ := loadSettings_valid input
  exact ⟨h1, h2, h3, rfl⟩

/-- C4: loading yields the built-in defaults {25, 5, 15} whenever the
persisted payload is absent, storage access throws, the payload is not
valid JSON, or it parses to a non-object; otherwise each of the three
fields is independently kept when valid and replaced by its default when
invalid or missing; in particular loading {workDuration: 45} with the
other fields absent yields {45, 5, 15}. -/
theorem C4_load_fallback_and_merge (w s l : Option JSField) :
    loadSettings .absent = DEFAULT_DURATIONS ∧
    loadSettings .storageThrows = DEFAULT_DURATIONS ∧
    loadSettings .parseError = DEFAULT_DURATIONS ∧
    loadSettings (.payload .nonObject) = DEFAULT_DURATIONS ∧
    loadSettings (.payload (.obj w s l)) =
      { workDuration := fieldOrDefault w DEFAULT_DURATIONS.workDuration
        shortBreakDuration :=
          fieldOrDefault s DEFAULT_DURATIONS.shortBreakDuration
        longBreakDuration :=
          fieldOrDefault l DEFAULT_DURATIONS.longBreakDuration } ∧
    loadSettings (.payload (.obj (some (.num 45)) none none)) =
      TimerDurations.mk 45 5 15 := by
  refine ⟨rfl, rfl, rfl, rfl, ?_, by decide⟩
  simp only [loadSettings, sanitize_obj]

/-- C5: saving a record whose three fields all satisfy the validation
predicate and then loading from the resulting storage in a fresh store
yields the identical record. -/
theorem C5_save_load_roundtrip (r : TimerDurations)
    (h : isValidDuration r.workDuration = true ∧
         isValidDuration r.shortBreakDuration = true ∧
         isValidDuration r.longBreakDuration = true) :
    loadSettings (.payload (storageAfterSave (saveSettingsMem r))) = r := by
  obtain ⟨hw, hs, hl⟩ := h
  have heq :
      loadSettings (.payload (storageAfterSave (saveSettingsMem r))) =
        { workDuration := r.workDuration
          shortBreakDuration := r.shortBreakDuration
          longBreakDuration := r.longBreakDuration } := by
    simp [loadSettings, saveSettingsMem, storageAfterSave, sanitize_obj,
      fieldOrDefault, hw, hs, hl]
  exact heq

/-- C5 witness: the round trip at the concrete record
{workDuration: 45, shortBreakDuration: 10, longBreakDuration: 25}. -/
theorem C5_save_load_roundtrip_witness :
    loadSettings (.payload (storageAfterSave (saveSettingsMem
        (TimerDurations.mk 45 10 25)))) = TimerDurations.mk 45 10 25 :=
  C5_save_load_roundtrip (TimerDurations.mk 45 10 25)
    ⟨by decide, by decide, by decide⟩

/-! ## Lemmas about the timer engine -/

lemma transition_time_eq (σ : TimerSettings) (s : EngineState) :
    (transitionToNextMode σ s).timeRemaining =
      getDurationForMode (transitionToNextMode σ s).mode σ := by
  by_cases hm : s.mode = .work <;> simp [transitionToNextMode, hm]

/-- C8: for every engine state and any current settings record, reset
sets runState to Idle, clears the tick source, and sets secondsRemaining
to durationFor(currentMode) computed from the settings passed at call
time, while mode and completedWorkSessions are unchanged. -/
theorem C8_reset_semantics (σ : TimerSettings) (s : EngineState) :
    (reset σ s).timerState = RunState.idle ∧
    (reset σ s).timeRemaining = getDurationForMode s.mode σ ∧
    (reset σ s).mode = s.mode ∧
    (reset σ s).sessionCount = s.sessionCount ∧
    (reset σ s).interval = false :=
  ⟨rfl, rfl, rfl, rfl, rfl⟩

/-- C9: skip performs exactly the state change of a natural
tick-to-zero completion (the tick of a running state whose
secondsRemaining is 1), regardless of the current secondsRemaining; from
Work it fires the work callback exactly once and increments the session
count exactly once, from a break it fires the break callback exactly
once, and it always ends Idle with secondsRemaining equal to the next
mode's duration. -/
theorem C9_skip_is_completion (σ : TimerSettings) (s : EngineState) :
    skip σ s =
      tick σ { s with
               timerState := .running
               interval := true
               timeRemaining := 1 } ∧
    (skip σ s).workCompleteCount =
      s.workCompleteCount + (if s.mode = .work then 1 else 0) ∧
    (skip σ s).breakCompleteCount =
      s.breakCompleteCount + (if s.mode = .work then 0 else 1) ∧
    (skip σ s).sessionCount =
      s.sessionCount + (if s.mode = .work then 1 else 0) ∧
    (skip σ s).timerState = RunState.idle ∧
    (skip σ s).timeRemaining = getDurationForMode (skip σ s).mode σ := by
  refine ⟨?_, ?_, ?_, ?_, ?_, ?_⟩
  · by_cases hm : s.mode = .work <;>
      simp [skip, tick, rawTick, completionEffect, transitionToNextMode,
        getNextMode, clearTimerInterval, hm]
  · by_cases hm : s.mode = .work <;>
      simp [skip, transitionToNextMode, clearTimerInterval, hm]
  · by_cases hm : s.mode = .work <;>
      simp [skip, transitionToNextMode, clearTimerInterval, hm]
  · by_cases hm : s.mode = .work <;>
      simp [skip, transitionToNextMode, clearTimerInterval, hm]
  · by_cases hm : s.mode = .work <;>
      simp [skip, transitionToNextMode, clearTimerInterval, hm]
  · exact transition_time_eq σ (clearTimerInterval s)

/-- C10: the interval callback of a running state never drives
secondsRemaining below zero — it yields the old value minus one when the
old value exceeds 1, and exactly 0 (cancelling the tick source) when the
old value is at most 1, so the result is nonnegative even from an
already-zero state. -/
theorem C10_tick_nonnegative (s : EngineState)
    (_h1 : s.timerState = RunState.running) (h2 : s.interval = true) :
    (rawTick s).timeRemaining =
      (if s.timeRemaining ≤ 1 then 0 else s.timeRemaining - 1) ∧
    (rawTick s).interval = (if s.timeRemaining ≤ 1 then false else true) ∧
    0 ≤ (rawTick s).timeRemaining := by
  by_cases ht : s.timeRemaining ≤ 1
  · refine ⟨?_, ?_, ?_⟩ <;> simp [rawTick, h2, ht]
  · have h3 : (1 : ℚ) < s.timeRemaining := not_le.mp ht
    refine ⟨?_, ?_, ?_⟩ <;> simp [rawTick, h2, ht]
    linarith

/-- C10 witness: the callback at a running state with 1500 seconds
remaining, and at a running state already at zero. -/
theorem C10_tick_nonnegative_witness :
    ((rawTick (EngineState.mk .work .running 1500 0 true 0 0)).timeRemaining =
      (if (EngineState.mk .work .running 1500 0 true 0
          0).timeRemaining ≤ 1 then 0
       else (EngineState.mk .work .running 1500 0 true 0
          0).timeRemaining - 1) ∧
    (rawTick (EngineState.mk .work .running 1500 0 true 0 0)).interval =
      (if (EngineState.mk .work .running 1500 0 true 0
          0).timeRemaining ≤ 1 then false else true) ∧
    0 ≤ (rawTick (EngineState.mk .work .running 1500 0 true 0
        0)).timeRemaining) ∧
    0 ≤ (rawTick (EngineState.mk .work .running 0 0 true 0
        0)).timeRemaining :=
  ⟨C10_tick_nonnegative (EngineState.mk .work .running 1500 0 true 0 0)
      rfl rfl,
    (C10_tick_nonnegative (EngineState.mk .work .running 0 0 true 0 0)
      rfl rfl).2.2⟩

/-- C1: completing an interval, whether by tick-to-zero or by skip,
increments completedWorkSessions by exactly 1 when the completed mode is
Work and the next mode is LongBreak exactly when the incremented count is
divisible by pomodorosBeforeLongBreak (4 in the default settings), else
ShortBreak; completing a break leaves the count unchanged and always
returns to Work. -/
theorem C1_mode_transition_policy (σ : TimerSettings) (s t : EngineState)
    (h1 : t.timerState = RunState.running) (h2 : t.interval = true)
    (h3 : t.timeRemaining ≤ 1) :
    (skip σ s).sessionCount =
      s.sessionCount + (if s.mode = .work then 1 else 0) ∧
    (skip σ s).mode =
      (if s.mode = .work then
        (if (s.sessionCount + 1) % σ.pomodorosBeforeLongBreak = 0 then
          TimerMode.longBreak else TimerMode.shortBreak)
       else TimerMode.work) ∧
    (tick σ t).sessionCount =
      t.sessionCount + (if t.mode = .work then 1 else 0) ∧
    (tick σ t).mode =
      (if t.mode = .work then
        (if (t.sessionCount + 1) % σ.pomodorosBeforeLongBreak = 0 then
          TimerMode.longBreak else TimerMode.shortBreak)
       else TimerMode.work) ∧
    DEFAULT_SETTINGS.pomodorosBeforeLongBreak = 4 := by
  have hcore : ∀ u : EngineState,
      (transitionToNextMode σ u).sessionCount =
        u.sessionCount + (if u.mode = .work then 1 else 0) ∧
      (transitionToNextMode σ u).mode =
        (if u.mode = .work then
          (if (u.sessionCount + 1) % σ.pomodorosBeforeLongBreak = 0 then
            TimerMode.longBreak else TimerMode.shortBreak)
         else TimerMode.work) := by
    intro u
    by_cases hm : u.mode = .work <;>
      simp [transitionToNextMode, getNextMode, hm]
  have htick : tick σ t =
      transitionToNextMode σ
        { t with timeRemaining := 0, interval := false } := by
    simp [tick, rawTick, completionEffect, h1, h2, h3]
  refine ⟨(hcore (clearTimerInterval s)).1, (hcore (clearTimerInterval s)).2,
    ?_, ?_, rfl⟩
  · rw [htick]
    exact (hcore _).1
  · rw [htick]
    exact (hcore _).2

/-- C1 witness: skip from the initial state, and tick-to-zero of a
running Work state with 3 completed sessions under the default settings
(the 4th completion, so the next mode is the long break). -/
theorem C1_mode_transition_policy_witness :
    (skip DEFAULT_SETTINGS (initEngine DEFAULT_SETTINGS)).sessionCount =
      (initEngine DEFAULT_SETTINGS).sessionCount +
        (if (initEngine DEFAULT_SETTINGS).mode = .work then 1 else 0) ∧
    (skip DEFAULT_SETTINGS (initEngine DEFAULT_SETTINGS)).mode =
      (if (initEngine DEFAULT_SETTINGS).mode = .work then
        (if ((initEngine DEFAULT_SETTINGS).sessionCount + 1) %
            DEFAULT_SETTINGS.pomodorosBeforeLongBreak = 0 then
          TimerMode.longBreak else TimerMode.shortBreak)
       else TimerMode.work) ∧
    (tick DEFAULT_SETTINGS
        (EngineState.mk .work .running 1 3 true 0 0)).sessionCount =
      (EngineState.mk .work .running 1 3 true 0 0).sessionCount +
        (if (EngineState.mk .work .running 1 3 true 0 0).mode = .work
         then 1 else 0) ∧
    (tick DEFAULT_SETTINGS
        (EngineState.mk .work .running 1 3 true 0 0)).mode =
      (if (EngineState.mk .work .running 1 3 true 0 0).mode = .work then
        (if ((EngineState.mk .work .running 1 3 true 0 0).sessionCount
              + 1) % DEFAULT_SETTINGS.pomodorosBeforeLongBreak = 0 then
          TimerMode.longBreak else TimerMode.shortBreak)
       else TimerMode.work) ∧
    DEFAULT_SETTINGS.pomodorosBeforeLongBreak = 4 :=
  C1_mode_transition_policy DEFAULT_SETTINGS (initEngine DEFAULT_SETTINGS)
    (EngineState.mk .work .running 1 3 true 0 0) rfl rfl le_rfl

lemma tick_iterate (σ : TimerSettings) :
    ∀ (k : ℕ) (u : EngineState), u.timerState = RunState.running →
      u.interval = true → (k : ℚ) < u.timeRemaining →
      (tick σ)^[k] u = { u with timeRemaining := u.timeRemaining - k } := by
  intro k
  induction k with
  | zero =>
    intro u h1 h2 h3
    simp
  | succ n ih =>
    intro u h1 h2 h3
    have hn0 : (0 : ℚ) ≤ n := Nat.cast_nonneg n
    have hcast : ((n : ℚ) + 1) < u.timeRemaining := by
      push_cast at h3
      linarith
    have hgt1 : ¬ (u.timeRemaining ≤ 1) := by
      push_cast at h3
      intro hle
      linarith
    have hne0 : u.timeRemaining - 1 ≠ 0 := by
      intro h0
      have : u.timeRemaining = 1 := by linarith
      exact hgt1 (le_of_eq this)
    have hstep : tick σ u = { u with timeRemaining := u.timeRemaining - 1 } := by
      simp [tick, rawTick, completionEffect, h2, hgt1, hne0]
    rw [Function.iterate_succ_apply, hstep]
    have hlt : (n : ℚ) < u.timeRemaining - 1 := by linarith
    rw [ih { u with timeRemaining := u.timeRemaining - 1 } h1 h2 hlt]
    congr 1
    push_cast
    ring

/-- C6: calling start while already Running changes nothing; after
start, n one-second ticks (n below secondsRemaining) decrement
secondsRemaining by exactly n; and a second start call after those ticks
is again a no-op, so it cannot change the per-tick decrement of 1.  The
hypothesis that Running implies an active tick source is the engine's
own invariant (start is the only operation that sets Running and it also
installs the interval). -/
theorem C6_start_idempotent (σ : TimerSettings) (s : EngineState) (n : ℕ)
    (hn : (n : ℚ) < s.timeRemaining)
    (hws : s.timerState = RunState.running → s.interval = true) :
    (s.timerState = RunState.running → start σ s = s) ∧
    ((tick σ)^[n] (start σ s)).timeRemaining = s.timeRemaining - n ∧
    start σ ((tick σ)^[n] (start σ s)) = (tick σ)^[n] (start σ s) := by
  have hn0 : (0 : ℚ) ≤ n := Nat.cast_nonneg n
  have hpos : s.timeRemaining ≠ 0 := by
    intro h0
    rw [h0] at hn
    linarith
  have hne : s.timeRemaining - (n : ℚ) ≠ 0 := sub_ne_zero_of_ne hn.ne'
  have hstart_run : s.timerState = RunState.running → start σ s = s := by
    intro hr
    simp [start, rawStart, completionEffect, hr, hpos]
  by_cases hr : s.timerState = RunState.running
  · have hu : start σ s = s := hstart_run hr
    have hit := tick_iterate σ n s hr (hws hr) hn
    rw [hu, hit]
    refine ⟨fun _ => rfl, rfl, ?_⟩
    simp [start, rawStart, completionEffect, hr, hne]
  · have hu : start σ s = { s with
        timerState := RunState.running
        interval := true } := by
      simp [start, rawStart, completionEffect, hr, hpos]
    have hit := tick_iterate σ n
      { s with timerState := RunState.running, interval := true }
      rfl rfl hn
    rw [hu, hit]
    refine ⟨fun hc => absurd hc hr, rfl, ?_⟩
    simp [start, rawStart, completionEffect, hne]

/-- C6 witness: three ticks after start from the freshly constructed
engine under the default settings. -/
theorem C6_start_idempotent_witness :
    ((initEngine DEFAULT_SETTINGS).timerState = RunState.running →
      start DEFAULT_SETTINGS (initEngine DEFAULT_SETTINGS) =
        initEngine DEFAULT_SETTINGS) ∧
    ((tick DEFAULT_SETTINGS)^[3]
        (start DEFAULT_SETTINGS (initEngine DEFAULT_SETTINGS))).timeRemaining
      = (initEngine DEFAULT_SETTINGS).timeRemaining - (3 : ℕ) ∧
    start DEFAULT_SETTINGS
        ((tick DEFAULT_SETTINGS)^[3]
          (start DEFAULT_SETTINGS (initEngine DEFAULT_SETTINGS))) =
      (tick DEFAULT_SETTINGS)^[3]
        (start DEFAULT_SETTINGS (initEngine DEFAULT_SETTINGS)) :=
  C6_start_idempotent DEFAULT_SETTINGS (initEngine DEFAULT_SETTINGS) 3
    (by norm_num [initEngine, getDurationForMode, DEFAULT_SETTINGS])
    (by intro h; simp [initEngine] at h)

/-- C7: pause while not Running is a no-op; pause while Running becomes
Paused, releases the tick source, and leaves secondsRemaining, mode and
completedWorkSessions exactly unchanged; any number of ticks while
Paused changes nothing; and a subsequent start resumes Running with
exactly the preserved secondsRemaining. -/
theorem C7_pause_semantics (σ : TimerSettings) (s s₂ : EngineState)
    (m : ℕ) (h1 : s.timerState = RunState.running)
    (h0 : 0 < s.timeRemaining)
    (h2 : s₂.timerState ≠ RunState.running) :
    pause s₂ = s₂ ∧
    (pause s).timerState = RunState.paused ∧
    (pause s).timeRemaining = s.timeRemaining ∧
    (pause s).mode = s.mode ∧
    (pause s).sessionCount = s.sessionCount ∧
    (tick σ)^[m] (pause s) = pause s ∧
    (start σ (pause s)).timeRemaining = s.timeRemaining ∧
    (start σ (pause s)).timerState = RunState.running := by
  have hp : pause s = { s with
      timerState := RunState.paused
      interval := false } := by
    simp [pause, clearTimerInterval, h1]
  have hfix : tick σ (pause s) = pause s := by
    rw [hp]
    simp [tick, rawTick, completionEffect]
  have hiter : (tick σ)^[m] (pause s) = pause s :=
    Function.iterate_fixed hfix m
  have hstart : start σ (pause s) = { s with
      timerState := RunState.running
      interval := true } := by
    rw [hp]
    simp [start, rawStart, completionEffect, h0.ne']
  refine ⟨by simp [pause, h2], by rw [hp], by rw [hp], by rw [hp],
    by rw [hp], hiter, by rw [hstart], by rw [hstart]⟩

/-- C7 witness: pausing a running Work state with 100 seconds left, five
ticks while paused, and resuming; plus pause as a no-op on the idle
initial state. -/
theorem C7_pause_semantics_witness :
    pause (initEngine DEFAULT_SETTINGS) = initEngine DEFAULT_SETTINGS ∧
    (pause (EngineState.mk .work .running 100 0 true 0 0)).timerState =
      RunState.paused ∧
    (pause (EngineState.mk .work .running 100 0 true 0 0)).timeRemaining =
      (EngineState.mk .work .running 100 0 true 0 0).timeRemaining ∧
    (pause (EngineState.mk .work .running 100 0 true 0 0)).mode =
      (EngineState.mk .work .running 100 0 true 0 0).mode ∧
    (pause (EngineState.mk .work .running 100 0 true 0 0)).sessionCount =
      (EngineState.mk .work .running 100 0 true 0 0).sessionCount ∧
    (tick DEFAULT_SETTINGS)^[5]
        (pause (EngineState.mk .work .running 100 0 true 0 0)) =
      pause (EngineState.mk .work .running 100 0 true 0 0) ∧
    (start DEFAULT_SETTINGS
        (pause (EngineState.mk .work .running 100 0 true 0
          0))).timeRemaining =
      (EngineState.mk .work .running 100 0 true 0 0).timeRemaining ∧
    (start DEFAULT_SETTINGS
        (pause (EngineState.mk .work .running 100 0 true 0
          0))).timerState = RunState.running :=
  C7_pause_semantics DEFAULT_SETTINGS
    (EngineState.mk .work .running 100 0 true 0 0)
    (initEngine DEFAULT_SETTINGS) 5 rfl (by norm_num)
    (by simp [initEngine])

/-! ## The secondsRemaining range invariant -/

/-- The range invariant of C2: secondsRemaining lies in
[0, durationFor(mode)] evaluated against the settings record σ. -/
def EngineInv (σ : TimerSettings) (s : EngineState) : Prop :=
  0 ≤ s.timeRemaining ∧
    s.timeRemaining ≤ getDurationForMode s.mode σ

lemma dur_nonneg (σ : TimerSettings)
    (h : 0 ≤ σ.workDuration ∧ 0 ≤ σ.shortBreakDuration ∧
      0 ≤ σ.longBreakDuration) (m : TimerMode) :
    0 ≤ getDurationForMode m σ := by
  cases m with
  | work => exact mul_nonneg h.1 (by norm_num)
  | shortBreak => exact mul_nonneg h.2.1 (by norm_num)
  | longBreak => exact mul_nonneg h.2.2 (by norm_num)

lemma inv_transition (σ : TimerSettings)
    (h : 0 ≤ σ.workDuration ∧ 0 ≤ σ.shortBreakDuration ∧
      0 ≤ σ.longBreakDuration) (s : EngineState) :
    EngineInv σ (transitionToNextMode σ s) :=
  ⟨transition_time_eq σ s ▸ dur_nonneg σ h _,
    le_of_eq (transition_time_eq σ s)⟩

lemma inv_effect (σ : TimerSettings)
    (h : 0 ≤ σ.workDuration ∧ 0 ≤ σ.shortBreakDuration ∧
      0 ≤ σ.longBreakDuration) (s : EngineState)
    (hs : EngineInv σ s) : EngineInv σ (completionEffect σ s) := by
  unfold completionEffect
  by_cases hc : s.timeRemaining = 0 ∧ s.timerState = RunState.running
  · rw [if_pos hc]
    exact inv_transition σ h s
  · rw [if_neg hc]
    exact hs

lemma inv_rawTick (σ : TimerSettings)
    (h : 0 ≤ σ.workDuration ∧ 0 ≤ σ.shortBreakDuration ∧
      0 ≤ σ.longBreakDuration) (s : EngineState)
    (hs : EngineInv σ s) : EngineInv σ (rawTick s) := by
  unfold rawTick
  by_cases hi : s.interval = true
  · rw [if_pos hi]
    by_cases ht : s.timeRemaining ≤ 1
    · rw [if_pos ht]
      exact ⟨le_refl 0, dur_nonneg σ h s.mode⟩
    · rw [if_neg ht]
      have h1 : (1 : ℚ) < s.timeRemaining := not_le.mp ht
      constructor
      · show (0 : ℚ) ≤ s.timeRemaining - 1
        linarith
      · show s.timeRemaining - 1 ≤ getDurationForMode s.mode σ
        have := hs.2
        linarith
  · rw [if_neg hi]
    exact hs

lemma inv_rawStart (σ : TimerSettings) (s : EngineState)
    (hs : EngineInv σ s) : EngineInv σ (rawStart s) := by
  unfold rawStart
  by_cases hr : s.timerState = RunState.running
  · rw [if_pos hr]
    exact hs
  · rw [if_neg hr]
    exact ⟨hs.1, hs.2⟩

lemma inv_step (σ : TimerSettings)
    (h : 0 ≤ σ.workDuration ∧ 0 ≤ σ.shortBreakDuration ∧
      0 ≤ σ.longBreakDuration) (op : Op) (s : EngineState)
    (hs : EngineInv σ s) : EngineInv σ (applyOp σ op s) := by
  cases op with
  | start => exact inv_effect σ h (rawStart s) (inv_rawStart σ s hs)
  | pause =>
    unfold applyOp pause
    by_cases hr : s.timerState ≠ RunState.running
    · rw [if_pos hr]
      exact hs
    · rw [if_neg hr]
      exact ⟨hs.1, hs.2⟩
  | reset => exact ⟨dur_nonneg σ h s.mode, le_refl _⟩
  | skip => exact inv_transition σ h (clearTimerInterval s)
  | tick => exact inv_effect σ h (rawTick s) (inv_rawTick σ h s hs)

lemma inv_runFixed (σ : TimerSettings)
    (h : 0 ≤ σ.workDuration ∧ 0 ≤ σ.shortBreakDuration ∧
      0 ≤ σ.longBreakDuration) (ops : List Op) :
    ∀ s : EngineState, EngineInv σ s → EngineInv σ (runFixed σ s ops) := by
  induction ops with
  | nil => exact fun s hs => hs
  | cons op rest ih => exact fun s hs => ih _ (inv_step σ h op s hs)

lemma inv_init (σ : TimerSettings)
    (h : 0 ≤ σ.workDuration ∧ 0 ≤ σ.shortBreakDuration ∧
      0 ≤ σ.longBreakDuration) : EngineInv σ (initEngine σ) :=
  ⟨dur_nonneg σ h .work, le_refl _⟩

lemma mode_change_resets (σ : TimerSettings) (op : Op) (s : EngineState) :
    (applyOp σ op s).mode = s.mode ∨
      (applyOp σ op s).timeRemaining =
        getDurationForMode (applyOp σ op s).mode σ := by
  cases op with
  | pause =>
    left
    show (pause s).mode = s.mode
    unfold pause
    split <;> rfl
  | reset => exact Or.inl rfl
  | skip => exact Or.inr (transition_time_eq σ (clearTimerInterval s))
  | start =>
    show (start σ s).mode = s.mode ∨
      (start σ s).timeRemaining =
        getDurationForMode (start σ s).mode σ
    unfold start completionEffect
    split
    · exact Or.inr (transition_time_eq σ (rawStart s))
    · left
      unfold rawStart
      split <;> rfl
  | tick =>
    show (tick σ s).mode = s.mode ∨
      (tick σ s).timeRemaining =
        getDurationForMode (tick σ s).mode σ
    unfold tick completionEffect
    split
    · exact Or.inr (transition_time_eq σ (rawTick s))
    · left
      unfold rawTick
      split
      · split <;> rfl
      · rfl

/-- C2 counterexample: start the engine under the default settings
(work = 25 minutes, so 1500 seconds), let one second elapse, then change
the settings record to work = 1 minute and pause.  The resulting
reachable state is paused mid-countdown with secondsRemaining = 1499,
which exceeds durationFor(Work) = 60 evaluated against the current
settings — the engine does not re-bound secondsRemaining when the
settings record changes during a countdown. -/
theorem C2_counterexample :
    (runTrace (initEngine DEFAULT_SETTINGS)
        [(DEFAULT_SETTINGS, Op.start), (DEFAULT_SETTINGS, Op.tick),
          (TimerSettings.mk 1 5 15 4, Op.pause)]).timerState =
      RunState.paused ∧
    ¬ ((runTrace (initEngine DEFAULT_SETTINGS)
        [(DEFAULT_SETTINGS, Op.start), (DEFAULT_SETTINGS, Op.tick),
          (TimerSettings.mk 1 5 15 4, Op.pause)]).timeRemaining ≤
      getDurationForMode
        (runTrace (initEngine DEFAULT_SETTINGS)
          [(DEFAULT_SETTINGS, Op.start), (DEFAULT_SETTINGS, Op.tick),
            (TimerSettings.mk 1 5 15 4, Op.pause)]).mode
        (TimerSettings.mk 1 5 15 4)) := by
  have h0 : initEngine DEFAULT_SETTINGS =
      EngineState.mk .work .idle 1500 0 false 0 0 := by
    norm_num [initEngine, DEFAULT_SETTINGS, getDurationForMode,
      EngineState.mk.injEq]
  have hne : RunState.idle ≠ RunState.running := by decide
  have h1 : start DEFAULT_SETTINGS
        (EngineState.mk .work .idle 1500 0 false 0 0) =
      EngineState.mk .work .running 1500 0 true 0 0 := by
    norm_num [start, rawStart, completionEffect, hne, EngineState.mk.injEq]
  have h2 : tick DEFAULT_SETTINGS
        (EngineState.mk .work .running 1500 0 true 0 0) =
      EngineState.mk .work .running 1499 0 true 0 0 := by
    norm_num [tick, rawTick, completionEffect, EngineState.mk.injEq]
  have h3 : pause (EngineState.mk .work .running 1499 0 true 0 0) =
      EngineState.mk .work .paused 1499 0 false 0 0 := by
    norm_num [pause, clearTimerInterval, EngineState.mk.injEq]
  have hrun : runTrace (initEngine DEFAULT_SETTINGS)
      [(DEFAULT_SETTINGS, Op.start), (DEFAULT_SETTINGS, Op.tick),
        (TimerSettings.mk 1 5 15 4, Op.pause)] =
      EngineState.mk .work .paused 1499 0 false 0 0 := by
    show pause (tick DEFAULT_SETTINGS
      (start DEFAULT_SETTINGS (initEngine DEFAULT_SETTINGS))) = _
    rw [h0, h1, h2, h3]
  rw [hrun]
  exact ⟨rfl, by norm_num [getDurationForMode]⟩

/-- C2 amended: in every engine state reachable under a settings record
that does not change along the way (and has nonnegative durations),
secondsRemaining stays in [0, durationFor(mode)] evaluated against that
record; after a settings change mid-countdown the bound is only
restored at the next reset or mode transition, since reset always sets
secondsRemaining to durationFor(mode) under the settings current at call
time and every operation that changes the mode sets secondsRemaining to
the new mode's duration under those settings. -/
theorem C2_range_invariant (σ : TimerSettings)
    (hσ : 0 ≤ σ.workDuration ∧ 0 ≤ σ.shortBreakDuration ∧
      0 ≤ σ.longBreakDuration)
    (ops : List Op) (s : EngineState) (op : Op) :
    (0 ≤ (runFixed σ (initEngine σ) ops).timeRemaining ∧
      (runFixed σ (initEngine σ) ops).timeRemaining ≤
        getDurationForMode (runFixed σ (initEngine σ) ops).mode σ) ∧
    (reset σ s).timeRemaining =
      getDurationForMode (reset σ s).mode σ ∧
    ((applyOp σ op s).mode = s.mode ∨
      (applyOp σ op s).timeRemaining =
        getDurationForMode (applyOp σ op s).mode σ) := by
  have hinv := inv_runFixed σ hσ ops (initEngine σ) (inv_init σ hσ)
  exact ⟨⟨hinv.1, hinv.2⟩, rfl, mode_change_resets σ op s⟩

/-- C2 witness: the invariant after a start and one tick under the
default settings, reset at the initial state, and the mode-change rule
for a skip from the initial state. -/
theorem C2_range_invariant_witness :
    (0 ≤ (runFixed DEFAULT_SETTINGS (initEngine DEFAULT_SETTINGS)
        [Op.start, Op.tick]).timeRemaining ∧
      (runFixed DEFAULT_SETTINGS (initEngine DEFAULT_SETTINGS)
        [Op.start, Op.tick]).timeRemaining ≤
        getDurationForMode
          (runFixed DEFAULT_SETTINGS (initEngine DEFAULT_SETTINGS)
            [Op.start, Op.tick]).mode DEFAULT_SETTINGS) ∧
    (reset DEFAULT_SETTINGS (initEngine DEFAULT_SETTINGS)).timeRemaining =
      getDurationForMode
        (reset DEFAULT_SETTINGS (initEngine DEFAULT_SETTINGS)).mode
        DEFAULT_SETTINGS ∧
    ((applyOp DEFAULT_SETTINGS Op.skip (initEngine DEFAULT_SETTINGS)).mode
        = (initEngine DEFAULT_SETTINGS).mode ∨
      (applyOp DEFAULT_SETTINGS Op.skip
          (initEngine DEFAULT_SETTINGS)).timeRemaining =
        getDurationForMode
          (applyOp DEFAULT_SETTINGS Op.skip
            (initEngine DEFAULT_SETTINGS)).mode DEFAULT_SETTINGS) :=
  C2_range_invariant DEFAULT_SETTINGS
    (by norm_num [DEFAULT_SETTINGS]) [Op.start, Op.tick]
    (initEngine DEFAULT_SETTINGS) Op.skip

end Pomodoro
